import Mathlib

/-!
Verification of the flow model, anomaly injection and detection-scoring
engine of the agentic process-orchestrator benchmark
(examples/huggingface_x_kurrent_skills/agentic_benchmark.py).

The Python source is embedded shallowly: the catalog of valid flows is a
constant association list, the random draws of the generators are passed in
as explicit parameters, the external language-model predictor is an opaque
function from histories to event names, and list mutation is expressed with
List.set / List.eraseIdx.
-/

/-- The module-level constant VALID_FLOWS: process family → named flow
variants, each an ordered list of event-type names. -/
def VALID_FLOWS : List (String × List (String × List String)) :=
  [("trade",
     [("normal", ["OrderSubmitted", "OrderValidated", "OrderRouted", "OrderFilled",
                  "TradeBooked", "TradeSettled", "TradeConfirmed"]),
      ("rejected", ["OrderSubmitted", "OrderRejected"]),
      ("cancelled", ["OrderSubmitted", "OrderValidated", "OrderRouted", "OrderCancelled"]),
      ("partial", ["OrderSubmitted", "OrderValidated", "OrderRouted",
                   "OrderPartiallyFilled", "OrderFilled", "TradeBooked", "TradeSettled",
                   "TradeConfirmed"])]),
   ("payment",
     [("normal", ["PaymentInitiated", "PaymentValidated", "PaymentPendingApproval",
                  "PaymentApproved", "PaymentExecuted", "PaymentCompleted"]),
      ("rejected", ["PaymentInitiated", "PaymentValidated", "PaymentPendingApproval",
                    "PaymentRejected"]),
      ("failed", ["PaymentInitiated", "PaymentValidated", "PaymentPendingApproval",
                  "PaymentApproved", "PaymentExecuted", "PaymentFailed"])]),
   ("risk",
     [("mitigated", ["RiskLimitBreached", "RiskAlertCreated", "RiskAlertAcknowledged",
                     "RiskMitigationStarted", "RiskMitigationCompleted", "RiskAlertResolved"]),
      ("accepted", ["RiskLimitBreached", "RiskAlertCreated", "RiskAlertAcknowledged",
                    "RiskAlertResolved"])]),
   ("compliance",
     [("clear", ["ComplianceCheckTriggered", "ComplianceCheckPassed"]),
      ("flagged", ["ComplianceCheckTriggered", "ComplianceFlagRaised",
                   "ComplianceReviewAssigned", "ComplianceReviewCompleted",
                   "ComplianceCaseClosed"])]),
   ("account",
     [("opened", ["AccountApplicationSubmitted", "AccountKYCStarted",
                  "AccountDocumentReceived", "AccountKYCCompleted", "AccountOpened",
                  "AccountFunded"])])]

/-- All (family, sequence) pairs stored in the catalog. -/
def catalogSeqs : List (String × List String) :=
  VALID_FLOWS.flatMap (fun fv => fv.2.map (fun nv => (fv.1, nv.2)))

/-- Boolean prefix test on character lists (building block for Python's
substring operator `in`). -/
def charsPrefixOf : List Char → List Char → Bool
  | [], _ => true
  | _ :: _, [] => false
  | a :: as, b :: bs => a == b && charsPrefixOf as bs

/-- Boolean substring test on character lists: does the needle occur
contiguously in the haystack? -/
def charsContain (needle : List Char) : List Char → Bool
  | [] => charsPrefixOf needle []
  | c :: rest => charsPrefixOf needle (c :: rest) || charsContain needle rest

/-- Python's `needle in hay` on strings. -/
def strContains (hay needle : String) : Bool :=
  charsContain needle.toList hay.toList

/-- The fixed substring → family table iterated (in insertion order) by
ProcessOrchestrator._detect_process_type. -/
def event_to_process : List (String × String) :=
  [("Order", "trade"), ("Trade", "trade"),
   ("Payment", "payment"),
   ("Risk", "risk"),
   ("Compliance", "compliance"),
   ("Account", "account"), ("KYC", "account")]

/-- ProcessOrchestrator._detect_process_type: first table entry whose key is
a substring of the event name wins; otherwise none. -/
def detect_process_type (event : String) : Option String :=
  (event_to_process.find? (fun p => strContains event p.1)).map (fun p => p.2)

/-- The AgentDecision dataclass. -/
structure AgentDecision where
  event_observed : String
  event_predicted : String
  confidence : ℚ
  is_anomaly : Bool
  anomaly_type : Option String
  explanation : String
  suggested_action : String

/-- ProcessOrchestrator.analyze_event, with the external model call passed in
as the opaque function predict. -/
def analyze_event (predict : List String → String) (event_history : List String)
    (actual_event : String) : AgentDecision :=
  let predicted := predict event_history
  let is_anomaly : Bool := decide (predicted ≠ actual_event)
  if is_anomaly then
    let last_event := event_history.getLastD "START"
    let actual_process := detect_process_type actual_event
    let expected_process := detect_process_type predicted
    if actual_process ≠ expected_process ∧ actual_process.isSome ∧ expected_process.isSome then
      { event_observed := actual_event
        event_predicted := predicted
        confidence := 0.75
        is_anomaly := true
        anomaly_type := some "cross_process_contamination"
        explanation := "Expected " ++ expected_process.getD "" ++ " event " ++ predicted ++
          ", but received " ++ actual_process.getD "" ++ " event " ++ actual_event ++
          ". Events from different process types are mixed."
        suggested_action := "Investigate why " ++ actual_event ++
          " appeared in this stream. Check for event routing errors." }
    else
      { event_observed := actual_event
        event_predicted := predicted
        confidence := 0.75
        is_anomaly := true
        anomaly_type := some "unexpected_transition"
        explanation := "Expected " ++ predicted ++ " after " ++ last_event ++
          ", but observed " ++ actual_event ++ ". This transition is unusual."
        suggested_action := "Review the process. If " ++ actual_event ++
          " is valid, the process may have taken an exception path. Otherwise, investigate the cause." }
  else
    { event_observed := actual_event
      event_predicted := predicted
      confidence := 0.88
      is_anomaly := false
      anomaly_type := none
      explanation := "Event " ++ actual_event ++
        " matches prediction. Process is following expected flow."
      suggested_action := "No action needed. Continue monitoring." }

/-- The loop body of ProcessOrchestrator.monitor_sequence: history collected
so far, remaining events to walk. -/
def monitorFrom (predict : List String → String) :
    List String → List String → List AgentDecision
  | _, [] => []
  | history, a :: rest =>
      analyze_event predict history a :: monitorFrom predict (history ++ [a]) rest

/-- ProcessOrchestrator.monitor_sequence: one decision per transition
(i-1, i) for i in [1, length). -/
def monitor_sequence (predict : List String → String) : List String → List AgentDecision
  | [] => []
  | e :: rest => monitorFrom predict [e] rest

/-- generate_normal_sequence with the two random draws fixed to explicit
keys; returns a copy of the catalog sequence together with the family. -/
def generate_normal_sequence (process_type flow_name : String) :
    Option (List String × String) :=
  match VALID_FLOWS.lookup process_type with
  | none => none
  | some flows =>
    match flows.lookup flow_name with
    | none => none
    | some s => some (s, process_type)

/-- The AnomalyType enum. -/
inductive AnomalyType where
  | noAnomaly
  | wrong_event
  | skipped_step
  | out_of_order
  | impossible
deriving DecidableEq

/-- The WRONG_EVENT branch of generate_anomalous_sequence: overwrite the
sequence at the drawn position with the foreign event name. -/
def inject_wrong_event (sequence : List String) (anomaly_position : Nat)
    (wrong_event : String) : List String × Int :=
  (sequence.set anomaly_position wrong_event, (anomaly_position : Int))

/-- The SKIPPED_STEP branch of generate_anomalous_sequence: pop the drawn
middle position when the sequence is long enough, otherwise leave the
sequence alone (anomaly_position stays -1). -/
def inject_skipped_step (sequence : List String) (skip_position : Nat) :
    List String × Int :=
  if sequence.length > 3 then
    (sequence.eraseIdx skip_position, (skip_position : Int))
  else (sequence, -1)

/-- The OUT_OF_ORDER branch of generate_anomalous_sequence: swap the two
adjacent elements at the drawn position when the sequence is long enough,
otherwise leave the sequence alone (anomaly_position stays -1). -/
def inject_out_of_order (sequence : List String) (swap_position : Nat) :
    List String × Int :=
  if sequence.length > 2 then
    ((sequence.set swap_position (sequence.getD (swap_position + 1) "")).set
        (swap_position + 1) (sequence.getD swap_position ""),
     (swap_position : Int) + 1)
  else (sequence, -1)

/-- The body of generate_anomalous_sequence after the sequence copy: the
drawn kind is forced to wrong_event on sequences shorter than 3, then the
matching injection branch runs; draw is the drawn position, wrong_event the
foreign event name (used only by the wrong_event branch). -/
def generate_anomalous_core (sequence : List String) (kind : AnomalyType)
    (draw : Nat) (wrong_event : String) : List String × AnomalyType × Int :=
  let kind := if sequence.length < 3 then AnomalyType.wrong_event else kind
  match kind with
  | AnomalyType.wrong_event =>
      let r := inject_wrong_event sequence draw wrong_event
      (r.1, AnomalyType.wrong_event, r.2)
  | AnomalyType.skipped_step =>
      let r := inject_skipped_step sequence draw
      (r.1, AnomalyType.skipped_step, r.2)
  | AnomalyType.out_of_order =>
      let r := inject_out_of_order sequence draw
      (r.1, AnomalyType.out_of_order, r.2)
  | k => (sequence, k, -1)

/-- The four benchmark classifications. -/
inductive ResultType where
  | TP
  | FN
  | FP
  | TN
deriving DecidableEq

/-- The scoring branch of run_benchmark, in the order of the source's
if/elif chain. -/
def classify_result (has_anomaly agent_detected : Bool) : ResultType :=
  if has_anomaly && agent_detected then ResultType.TP
  else if has_anomaly && !agent_detected then ResultType.FN
  else if !has_anomaly && agent_detected then ResultType.FP
  else ResultType.TN

/-- The four confusion-matrix counters of the results record. -/
structure BenchResults where
  true_positives : Nat
  false_positives : Nat
  true_negatives : Nat
  false_negatives : Nat
deriving DecidableEq

/-- The counter increment run_benchmark performs for each classification. -/
def record_result (r : BenchResults) : ResultType → BenchResults
  | ResultType.TP => { r with true_positives := r.true_positives + 1 }
  | ResultType.FN => { r with false_negatives := r.false_negatives + 1 }
  | ResultType.FP => { r with false_positives := r.false_positives + 1 }
  | ResultType.TN => { r with true_negatives := r.true_negatives + 1 }

/-- Sum of the four counters. -/
def totalCount (r : BenchResults) : Nat :=
  r.true_positives + r.false_positives + r.true_negatives + r.false_negatives

/-- run_benchmark's sequence-level detection: any decision flagged. -/
def agent_detected_anomaly (decisions : List AgentDecision) : Bool :=
  decisions.any (fun d => d.is_anomaly)

/-- precision = tp/(tp+fp), 0 when the denominator is 0. -/
def precision (tp fp : Nat) : ℚ :=
  if tp + fp > 0 then (tp : ℚ) / ((tp : ℚ) + (fp : ℚ)) else 0

/-- recall = tp/(tp+fn), 0 when the denominator is 0. -/
def recall_score (tp fn : Nat) : ℚ :=
  if tp + fn > 0 then (tp : ℚ) / ((tp : ℚ) + (fn : ℚ)) else 0

/-- f1 = 2pr/(p+r) computed from the already-derived precision and recall,
0 when the denominator is 0. -/
def f1_score (p r : ℚ) : ℚ :=
  if p + r > 0 then 2 * p * r / (p + r) else 0

/-- accuracy = (tp+tn)/(tp+tn+fp+fn); the source has no zero guard here. -/
def accuracy (tp fp tn fn : Nat) : ℚ :=
  ((tp : ℚ) + (tn : ℚ)) / ((tp : ℚ) + (tn : ℚ) + (fp : ℚ) + (fn : ℚ))

/-! ## Helper lemmas -/

theorem monitorFrom_length (predict : List String → String) :
    ∀ (rest history : List String), (monitorFrom predict history rest).length = rest.length := by
  intro rest
  induction rest with
  | nil => intro history; rfl
  | cons a rest ih => intro history; simp [monitorFrom, ih]

theorem monitorFrom_getElem? (predict : List String → String) :
    ∀ (rest history : List String) (j : Nat),
      (monitorFrom predict history rest)[j]? =
        (rest[j]?).map (fun a => analyze_event predict (history ++ rest.take j) a) := by
  intro rest
  induction rest with
  | nil => intro history j; rfl
  | cons a rest ih =>
    intro history j
    cases j with
    | zero => simp [monitorFrom]
    | succ j =>
      simp only [monitorFrom, List.getElem?_cons_succ, List.take_succ_cons]
      rw [ih (history ++ [a]) j]
      simp [List.append_assoc]

theorem analyze_event_observed (predict : List String → String) (history : List String)
    (actual : String) : (analyze_event predict history actual).event_observed = actual := by
  unfold analyze_event
  dsimp only
  split
  · split <;> rfl
  · rfl

theorem analyze_event_predicted (predict : List String → String) (history : List String)
    (actual : String) : (analyze_event predict history actual).event_predicted = predict history := by
  unfold analyze_event
  dsimp only
  split
  · split <;> rfl
  · rfl

theorem analyze_event_is_anomaly (predict : List String → String) (history : List String)
    (actual : String) :
    (analyze_event predict history actual).is_anomaly = decide (predict history ≠ actual) := by
  unfold analyze_event
  dsimp only
  split
  · rename_i hb
    rw [hb]
    split <;> rfl
  · rename_i hb
    exact (Bool.not_eq_true _).mp hb ▸ rfl

theorem cross_cond_iff (a p : Option String) :
    (a ≠ p ∧ a.isSome ∧ p.isSome) ↔ ∃ fa fp, a = some fa ∧ p = some fp ∧ fa ≠ fp := by
  cases a <;> cases p <;> simp

theorem analyze_event_anomaly_type (predict : List String → String) (history : List String)
    (actual : String) (hne : predict history ≠ actual) :
    ((∃ fa fp, detect_process_type actual = some fa ∧
        detect_process_type (predict history) = some fp ∧ fa ≠ fp) →
      (analyze_event predict history actual).anomaly_type = some "cross_process_contamination") ∧
    (¬ (∃ fa fp, detect_process_type actual = some fa ∧
        detect_process_type (predict history) = some fp ∧ fa ≠ fp) →
      (analyze_event predict history actual).anomaly_type = some "unexpected_transition") := by
  have hd : decide (predict history ≠ actual) = true := decide_eq_true hne
  rw [← cross_cond_iff (detect_process_type actual) (detect_process_type (predict history))]
  unfold analyze_event
  dsimp only
  rw [hd]
  constructor
  · intro hc
    rw [if_pos rfl, if_pos hc]
  · intro hc
    rw [if_pos rfl, if_neg hc]

theorem analyze_event_no_anomaly (predict : List String → String) (history : List String)
    (actual : String) (heq : predict history = actual) :
    (analyze_event predict history actual).anomaly_type = none := by
  have hd : decide (predict history ≠ actual) = false := by
    simp [heq]
  unfold analyze_event
  dsimp only
  rw [hd]
  rfl

theorem catalog_families_disjoint :
    ∀ p ∈ catalogSeqs, ∀ q ∈ catalogSeqs, p.1 ≠ q.1 → ∀ x ∈ p.2, ¬ x ∈ q.2 := by decide

theorem catalog_min_length : ∀ p ∈ catalogSeqs, 2 ≤ p.2.length := by decide

theorem catalog_events_have_family :
    ∀ p ∈ catalogSeqs, ∀ x ∈ p.2, detect_process_type x = some p.1 := by decide

theorem monitorFrom_no_anomaly (predict : List String → String) :
    ∀ (rest history : List String),
      (∀ j : Nat, ∀ h : j < rest.length, predict (history ++ rest.take j) = rest.get ⟨j, h⟩) →
      (monitorFrom predict history rest).all (fun d => !d.is_anomaly) = true := by
  intro rest
  induction rest with
  | nil => intro history _; rfl
  | cons a rest ih =>
    intro history hor
    have h0 : predict history = a := by
      have h00 := hor 0 (by simp)
      simpa using h00
    have hall : (monitorFrom predict (history ++ [a]) rest).all (fun d => !d.is_anomaly) = true := by
      apply ih
      intro j h
      have h2 := hor (j + 1) (Nat.succ_lt_succ h)
      simp only [List.take_succ_cons, List.get_cons_succ] at h2
      rw [List.append_cons] at h2
      exact h2
    simp [monitorFrom, List.all_cons, hall, analyze_event_is_anomaly, h0]

/-! ## Claims -/

/-- C1, counterexample: monitor_sequence on the empty sequence does not fail
with any InvalidSequence condition — it returns normally, producing the empty
list of decisions. -/
theorem monitor_sequence_empty_returns_normally :
    monitor_sequence (fun _ => "OrderValidated") [] = [] := rfl

/-- C1, amended: for every predictor, passing an EventSequence of length 0
to monitor_sequence returns normally with an empty verdict list; no
transition is derived from the empty history (the predictor is never
called). -/
theorem monitor_sequence_empty (predict : List String → String) :
    monitor_sequence predict [] = [] := rfl

/-- C3: for every transition of a monitored sequence, the verdict is
anomalous exactly when the predicted name differs from the observed name
(strict string equality); when anomalous, the category is
cross_process_contamination exactly when both names resolve to known and
different families, and unexpected_transition otherwise. -/
theorem monitor_verdict_spec (predict : List String → String) (events : List String)
    (i : Nat) (d : AgentDecision)
    (hd : (monitor_sequence predict events)[i]? = some d) :
    d.event_predicted = predict (events.take (i + 1)) ∧
    events[i + 1]? = some d.event_observed ∧
    (d.is_anomaly = true ↔ d.event_predicted ≠ d.event_observed) ∧
    (d.is_anomaly = true →
      ((∃ fa fp, detect_process_type d.event_observed = some fa ∧
          detect_process_type d.event_predicted = some fp ∧ fa ≠ fp) →
        d.anomaly_type = some "cross_process_contamination") ∧
      (¬ (∃ fa fp, detect_process_type d.event_observed = some fa ∧
          detect_process_type d.event_predicted = some fp ∧ fa ≠ fp) →
        d.anomaly_type = some "unexpected_transition")) ∧
    (d.is_anomaly = false → d.anomaly_type = none) := by
  cases events with
  | nil => simp [monitor_sequence] at hd
  | cons e rest =>
    have hm : (monitor_sequence predict (e :: rest))[i]? =
        (rest[i]?).map (fun a => analyze_event predict ([e] ++ rest.take i) a) :=
      monitorFrom_getElem? predict rest [e] i
    rw [hm] at hd
    obtain ⟨a, ha, hdef⟩ := Option.map_eq_some'.mp hd
    subst hdef
    have htake : (e :: rest).take (i + 1) = [e] ++ rest.take i := rfl
    refine ⟨?_, ?_, ?_, ?_, ?_⟩
    · rw [analyze_event_predicted, htake]
    · rw [List.getElem?_cons_succ, ha, analyze_event_observed]
    · rw [analyze_event_is_anomaly, analyze_event_predicted, analyze_event_observed]
      exact decide_eq_true_iff
    · intro hanom
      rw [analyze_event_is_anomaly] at hanom
      have hne : predict ([e] ++ rest.take i) ≠ a := of_decide_eq_true hanom
      rw [analyze_event_predicted, analyze_event_observed]
      exact analyze_event_anomaly_type predict ([e] ++ rest.take i) a hne
    · intro hno
      rw [analyze_event_is_anomaly] at hno
      have heq : predict ([e] ++ rest.take i) = a := by
        have := of_decide_eq_false hno
        exact not_not.mp this
      exact analyze_event_no_anomaly predict ([e] ++ rest.take i) a heq

/-- C3 witness: on the demo sequence with a predictor answering OrderRouted,
transition 2 is flagged as cross-process contamination. -/
theorem monitor_verdict_spec_witness :
    ((monitor_sequence (fun _ => "OrderRouted")
        ["OrderSubmitted", "OrderValidated", "PaymentFailed"])[1]?).map
      (fun d => d.anomaly_type) = some (some "cross_process_contamination") := by
  have hd : (monitor_sequence (fun _ => "OrderRouted")
      ["OrderSubmitted", "OrderValidated", "PaymentFailed"])[1]? =
      some (analyze_event (fun _ => "OrderRouted")
        ["OrderSubmitted", "OrderValidated"] "PaymentFailed") := rfl
  have h := monitor_verdict_spec (fun _ => "OrderRouted")
    ["OrderSubmitted", "OrderValidated", "PaymentFailed"] 1
    (analyze_event (fun _ => "OrderRouted") ["OrderSubmitted", "OrderValidated"] "PaymentFailed")
    hd
  have hanom : (analyze_event (fun _ => "OrderRouted")
      ["OrderSubmitted", "OrderValidated"] "PaymentFailed").is_anomaly = true := by decide
  have hcat := (h.2.2.2.1 hanom).1 ⟨"payment", "trade", by decide, by decide, by decide⟩
  rw [hd, Option.map_some', hcat]

/-- C5: the sequence-level classification is TP/FN/FP/TN exactly per the
(has_anomaly, any verdict anomalous) table, and exactly one of the four
counters is incremented per test case. -/
theorem classify_result_spec (has_anomaly : Bool) (decisions : List AgentDecision)
    (r : BenchResults) :
    (classify_result has_anomaly (agent_detected_anomaly decisions) = ResultType.TP ↔
      has_anomaly = true ∧ agent_detected_anomaly decisions = true) ∧
    (classify_result has_anomaly (agent_detected_anomaly decisions) = ResultType.FN ↔
      has_anomaly = true ∧ agent_detected_anomaly decisions = false) ∧
    (classify_result has_anomaly (agent_detected_anomaly decisions) = ResultType.FP ↔
      has_anomaly = false ∧ agent_detected_anomaly decisions = true) ∧
    (classify_result has_anomaly (agent_detected_anomaly decisions) = ResultType.TN ↔
      has_anomaly = false ∧ agent_detected_anomaly decisions = false) ∧
    totalCount (record_result r (classify_result has_anomaly (agent_detected_anomaly decisions))) =
      totalCount r + 1 ∧
    ((record_result r (classify_result has_anomaly (agent_detected_anomaly decisions))).true_positives
        = r.true_positives ∨
      (record_result r (classify_result has_anomaly (agent_detected_anomaly decisions))).true_positives
        = r.true_positives + 1) ∧
    ((record_result r (classify_result has_anomaly (agent_detected_anomaly decisions))).false_negatives
        = r.false_negatives ∨
      (record_result r (classify_result has_anomaly (agent_detected_anomaly decisions))).false_negatives
        = r.false_negatives + 1) ∧
    ((record_result r (classify_result has_anomaly (agent_detected_anomaly decisions))).false_positives
        = r.false_positives ∨
      (record_result r (classify_result has_anomaly (agent_detected_anomaly decisions))).false_positives
        = r.false_positives + 1) ∧
    ((record_result r (classify_result has_anomaly (agent_detected_anomaly decisions))).true_negatives
        = r.true_negatives ∨
      (record_result r (classify_result has_anomaly (agent_detected_anomaly decisions))).true_negatives
        = r.true_negatives + 1) := by
  cases has_anomaly <;> cases hdet : agent_detected_anomaly decisions <;>
    simp [classify_result, record_result, totalCount, hdet] <;> omega

/-- C4: the derived metrics are the four ratio formulas with every
zero-denominator case defined as 0 (accuracy has no guard); on
TP=8, FP=2, TN=7, FN=3 they evaluate to 0.8, 0.727 (within 0.001), 0.75 and
0.762 (within 0.001). -/
theorem metrics_spec :
    (∀ tp fp : Nat, tp + fp = 0 → precision tp fp = 0) ∧
    (∀ tp fp : Nat, 0 < tp + fp → precision tp fp * ((tp : ℚ) + (fp : ℚ)) = tp) ∧
    (∀ tp fn : Nat, tp + fn = 0 → recall_score tp fn = 0) ∧
    (∀ tp fn : Nat, 0 < tp + fn → recall_score tp fn * ((tp : ℚ) + (fn : ℚ)) = tp) ∧
    (∀ p r : ℚ, ¬ 0 < p + r → f1_score p r = 0) ∧
    (∀ p r : ℚ, 0 < p + r → f1_score p r * (p + r) = 2 * p * r) ∧
    (∀ tp fp tn fn : Nat, 0 < tp + tn + fp + fn →
      accuracy tp fp tn fn * ((tp : ℚ) + (tn : ℚ) + (fp : ℚ) + (fn : ℚ)) = (tp : ℚ) + (tn : ℚ)) ∧
    precision 8 2 = 0.8 ∧
    |recall_score 8 3 - 0.727| ≤ 0.001 ∧
    accuracy 8 2 7 3 = 0.75 ∧
    |f1_score (precision 8 2) (recall_score 8 3) - 0.762| ≤ 0.001 := by
  refine ⟨?_, ?_, ?_, ?_, ?_, ?_, ?_, ?_, ?_, ?_, ?_⟩
  · intro tp fp h
    simp [precision, h]
  · intro tp fp h
    have hq : (tp : ℚ) + (fp : ℚ) ≠ 0 := by
      have : (0 : ℚ) < (tp : ℚ) + (fp : ℚ) := by exact_mod_cast h
      linarith
    rw [precision, if_pos h, div_mul_cancel₀ _ hq]
  · intro tp fn h
    simp [recall_score, h]
  · intro tp fn h
    have hq : (tp : ℚ) + (fn : ℚ) ≠ 0 := by
      have : (0 : ℚ) < (tp : ℚ) + (fn : ℚ) := by exact_mod_cast h
      linarith
    rw [recall_score, if_pos h, div_mul_cancel₀ _ hq]
  · intro p r h
    rw [f1_score, if_neg h]
  · intro p r h
    rw [f1_score, if_pos h, div_mul_cancel₀ _ (ne_of_gt h)]
  · intro tp fp tn fn h
    have hq : (tp : ℚ) + (tn : ℚ) + (fp : ℚ) + (fn : ℚ) ≠ 0 := by
      have : (0 : ℚ) < (tp : ℚ) + (tn : ℚ) + (fp : ℚ) + (fn : ℚ) := by
        exact_mod_cast h
      linarith
    rw [accuracy, div_mul_cancel₀ _ hq]
  · norm_num [precision]
  · rw [abs_le]
    constructor <;> norm_num [recall_score]
  · norm_num [accuracy]
  · rw [abs_le]
    constructor <;> norm_num [f1_score, precision, recall_score]

/-- C4 witness: the general metric laws instantiated at concrete counts. -/
theorem metrics_spec_witness :
    precision 0 0 = 0 ∧ precision 8 2 * ((8 : ℚ) + 2) = 8 :=
  ⟨metrics_spec.1 0 0 rfl, metrics_spec.2.1 8 2 (by norm_num)⟩

/-- C2: a skipped_step injection at a drawn position in [1, N-2] on a
catalog variant of length N > 3 removes exactly the element at that
position (yielding length N-1) and records it as anomaly_index; on a
length-3 variant the sequence is returned unmodified with the kind still
skipped_step. -/
theorem skipped_step_spec (family : String) (s : List String) (pos : Nat) (w : String)
    (_hmem : (family, s) ∈ catalogSeqs) :
    (s.length > 3 → 1 ≤ pos → pos ≤ s.length - 2 →
      generate_anomalous_core s AnomalyType.skipped_step pos w =
        (s.take pos ++ s.drop (pos + 1), AnomalyType.skipped_step, (pos : Int)) ∧
      (generate_anomalous_core s AnomalyType.skipped_step pos w).1.length = s.length - 1) ∧
    (s.length = 3 →
      generate_anomalous_core s AnomalyType.skipped_step pos w =
        (s, AnomalyType.skipped_step, -1)) := by
  constructor
  · intro hlen h1 h2
    have hnot : ¬ s.length < 3 := by omega
    have hcore : generate_anomalous_core s AnomalyType.skipped_step pos w =
        (s.eraseIdx pos, AnomalyType.skipped_step, (pos : Int)) := by
      simp [generate_anomalous_core, inject_skipped_step, hnot, hlen]
    have hpos : pos < s.length := by omega
    constructor
    · rw [hcore, List.eraseIdx_eq_take_drop_succ]
    · rw [hcore]
      exact List.length_eraseIdx_of_lt hpos
  · intro h3
    have hnot : ¬ s.length < 3 := by omega
    have hngt : ¬ s.length > 3 := by omega
    simp [generate_anomalous_core, inject_skipped_step, hnot, hngt]

/-- C2 witness: skipping position 2 of the 4-step cancelled trade flow. -/
theorem skipped_step_spec_witness :
    generate_anomalous_core
        ["OrderSubmitted", "OrderValidated", "OrderRouted", "OrderCancelled"]
        AnomalyType.skipped_step 2 "X" =
      (["OrderSubmitted", "OrderValidated", "OrderCancelled"],
        AnomalyType.skipped_step, 2) := by
  have h := (skipped_step_spec "trade"
      ["OrderSubmitted", "OrderValidated", "OrderRouted", "OrderCancelled"] 2 "X"
      (by decide)).1 (by decide) (by decide) (by decide)
  rw [h.1]
  rfl

/-- C6: a wrong_event injection at a drawn position in [1, N-1] on a catalog
variant, with the foreign name drawn from a variant of a different family,
keeps the length, overwrites exactly that position (which genuinely changes,
since event names never cross families), preserves the opening event, and
records the position as anomaly_index. -/
theorem wrong_event_spec (family : String) (s : List String)
    (other_family : String) (s' : List String) (pos : Nat) (w : String)
    (hs : (family, s) ∈ catalogSeqs) (hs' : (other_family, s') ∈ catalogSeqs)
    (hff : other_family ≠ family) (hw : w ∈ s')
    (h1 : 1 ≤ pos) (h2 : pos ≤ s.length - 1) :
    (generate_anomalous_core s AnomalyType.wrong_event pos w).1.length = s.length ∧
    (generate_anomalous_core s AnomalyType.wrong_event pos w).2.1 = AnomalyType.wrong_event ∧
    (generate_anomalous_core s AnomalyType.wrong_event pos w).2.2 = (pos : Int) ∧
    (generate_anomalous_core s AnomalyType.wrong_event pos w).1[pos]? = some w ∧
    s[pos]? ≠ some w ∧
    (∀ j, j ≠ pos → (generate_anomalous_core s AnomalyType.wrong_event pos w).1[j]? = s[j]?) ∧
    (generate_anomalous_core s AnomalyType.wrong_event pos w).1[0]? = s[0]? := by
  have hcore : generate_anomalous_core s AnomalyType.wrong_event pos w =
      (s.set pos w, AnomalyType.wrong_event, (pos : Int)) := by
    simp [generate_anomalous_core, inject_wrong_event]
  have hlen2 : 2 ≤ s.length := catalog_min_length (family, s) hs
  have hpos : pos < s.length := by omega
  refine ⟨?_, ?_, ?_, ?_, ?_, ?_, ?_⟩
  · rw [hcore]
    exact List.length_set s pos w
  · rw [hcore]
  · rw [hcore]
  · rw [hcore]
    exact List.getElem?_set_self hpos
  · intro hcontra
    have hvmem : w ∈ s := List.getElem?_mem hcontra
    exact catalog_families_disjoint (other_family, s') hs' (family, s) hs hff w hw hvmem
  · intro j hj
    rw [hcore]
    exact List.getElem?_set_ne (fun h => hj h.symm)
  · rw [hcore]
    exact List.getElem?_set_ne (by omega)

/-- C6 witness: overwriting position 1 of the rejected trade flow with a
payment event. -/
theorem wrong_event_spec_witness :
    (generate_anomalous_core ["OrderSubmitted", "OrderRejected"]
        AnomalyType.wrong_event 1 "PaymentInitiated").1[1]? = some "PaymentInitiated" ∧
    (["OrderSubmitted", "OrderRejected"] : List String)[1]? ≠ some "PaymentInitiated" := by
  have h := wrong_event_spec "trade" ["OrderSubmitted", "OrderRejected"]
    "payment" ["PaymentInitiated", "PaymentValidated", "PaymentPendingApproval",
      "PaymentRejected"] 1 "PaymentInitiated"
    (by decide) (by decide) (by decide) (by decide) (by decide) (by decide)
  exact ⟨h.2.2.2.1, h.2.2.2.2.1⟩

/-- C7: an out_of_order injection at a drawn position p in [1, N-2] on a
catalog variant of length N > 2 keeps the length, transposes exactly the
adjacent elements at p and p+1, and records p+1 as anomaly_index. -/
theorem out_of_order_spec (family : String) (s : List String) (p : Nat) (w : String)
    (_hs : (family, s) ∈ catalogSeqs) (hlen : s.length > 2)
    (_h1 : 1 ≤ p) (h2 : p ≤ s.length - 2) :
    (generate_anomalous_core s AnomalyType.out_of_order p w).1.length = s.length ∧
    (generate_anomalous_core s AnomalyType.out_of_order p w).2.1 = AnomalyType.out_of_order ∧
    (generate_anomalous_core s AnomalyType.out_of_order p w).2.2 = (p : Int) + 1 ∧
    (generate_anomalous_core s AnomalyType.out_of_order p w).1[p]? = s[p + 1]? ∧
    (generate_anomalous_core s AnomalyType.out_of_order p w).1[p + 1]? = s[p]? ∧
    (∀ j, j ≠ p → j ≠ p + 1 →
      (generate_anomalous_core s AnomalyType.out_of_order p w).1[j]? = s[j]?) := by
  have hnot : ¬ s.length < 3 := by omega
  have hp1 : p + 1 < s.length := by omega
  have hp : p < s.length := by omega
  have hcore : generate_anomalous_core s AnomalyType.out_of_order p w =
      ((s.set p (s.getD (p + 1) "")).set (p + 1) (s.getD p ""),
        AnomalyType.out_of_order, (p : Int) + 1) := by
    simp [generate_anomalous_core, inject_out_of_order, hnot, hlen]
  have hgetD1 : s.getD (p + 1) "" = s[p + 1] := List.getD_eq_getElem s "" hp1
  have hgetD0 : s.getD p "" = s[p] := List.getD_eq_getElem s "" hp
  refine ⟨?_, ?_, ?_, ?_, ?_, ?_⟩
  · rw [hcore]
    simp [List.length_set]
  · rw [hcore]
  · rw [hcore]
  · rw [hcore]
    have hne : p + 1 ≠ p := by omega
    rw [List.getElem?_set_ne hne]
    rw [List.getElem?_set_self hp, hgetD1, List.getElem?_eq_getElem hp1]
  · rw [hcore]
    rw [List.getElem?_set_self (by simpa using hp1), hgetD0, List.getElem?_eq_getElem hp]
  · intro j hj1 hj2
    rw [hcore]
    rw [List.getElem?_set_ne (fun h => hj2 h.symm), List.getElem?_set_ne (fun h => hj1 h.symm)]

/-- C7 witness: swapping positions 1 and 2 of the accepted risk flow. -/
theorem out_of_order_spec_witness :
    (generate_anomalous_core
        ["RiskLimitBreached", "RiskAlertCreated", "RiskAlertAcknowledged", "RiskAlertResolved"]
        AnomalyType.out_of_order 1 "X").1[1]? = some "RiskAlertAcknowledged" ∧
    (generate_anomalous_core
        ["RiskLimitBreached", "RiskAlertCreated", "RiskAlertAcknowledged", "RiskAlertResolved"]
        AnomalyType.out_of_order 1 "X").2.2 = 2 := by
  have h := out_of_order_spec "risk"
    ["RiskLimitBreached", "RiskAlertCreated", "RiskAlertAcknowledged", "RiskAlertResolved"]
    1 "X" (by decide) (by decide) (by decide) (by decide)
  refine ⟨?_, ?_⟩
  · rw [h.2.2.2.1]
    rfl
  · rw [h.2.2.1]
    rfl

/-- C8: monitoring any sequence produced by generate_normal_sequence with a
perfect oracle predictor (one that predicts the catalog's next element for
every history) yields zero anomalous transition verdicts. -/
theorem generate_normal_perfect_oracle (process_type flow_name : String)
    (s : List String) (fam : String) (predict : List String → String)
    (_hgen : generate_normal_sequence process_type flow_name = some (s, fam))
    (horacle : ∀ i : Nat, ∀ h : i + 1 < s.length,
      predict (s.take (i + 1)) = s.get ⟨i + 1, h⟩) :
    (monitor_sequence predict s).all (fun d => !d.is_anomaly) = true := by
  cases s with
  | nil => rfl
  | cons e rest =>
    apply monitorFrom_no_anomaly
    intro j h
    have h2 := horacle j (Nat.succ_lt_succ h)
    simp only [List.take_succ_cons, List.get_cons_succ] at h2
    simpa using h2

/-- C8 witness: the clear compliance flow with its perfect oracle. -/
theorem generate_normal_perfect_oracle_witness :
    (monitor_sequence (fun _ => "ComplianceCheckPassed")
        ["ComplianceCheckTriggered", "ComplianceCheckPassed"]).all
      (fun d => !d.is_anomaly) = true := by
  apply generate_normal_perfect_oracle "compliance" "clear"
    ["ComplianceCheckTriggered", "ComplianceCheckPassed"] "compliance"
    (fun _ => "ComplianceCheckPassed") (by decide)
  intro i h
  have hi : i = 0 := by
    simp only [List.length_cons, List.length_nil] at h
    omega
  subst hi
  rfl

/-- C10: every event name stored in a catalog variant is classified by
detect_process_type to exactly the family the variant is stored under. -/
theorem catalog_event_family (family : String) (s : List String) (e : String)
    (hs : (family, s) ∈ catalogSeqs) (he : e ∈ s) :
    detect_process_type e = some family :=
  catalog_events_have_family (family, s) hs e he

/-- C10 witness: a risk event classifies to the risk family. -/
theorem catalog_event_family_witness :
    detect_process_type "RiskMitigationStarted" = some "risk" :=
  catalog_event_family "risk"
    ["RiskLimitBreached", "RiskAlertCreated", "RiskAlertAcknowledged",
     "RiskMitigationStarted", "RiskMitigationCompleted", "RiskAlertResolved"]
    "RiskMitigationStarted" (by decide) (by decide)
